import Mathlib

/-!
Verification of the Conway's Game of Life simulation core
(`conways_game_of_life_app.py`).

The grid is a numpy 2D array of 0/1 values; we embed it as a list of rows,
each row a list of `Nat` cell values.  The imperative update loop (which
first copies the grid and then writes selected cells of the copy) is
embedded as a fold over a pair `(grid, new_grid)`: the first component is
the current generation that all reads go to, the second is the copy that
receives the writes.
-/

namespace GameOfLife

/-- A grid: list of rows, each row a list of cell values (0 = DEAD, 1 = ALIVE).
Mirrors the numpy array `grid` created by `np.zeros((GRID_ROWS, GRID_COLS))`. -/
abbrev Grid := List (List Nat)

/-- Read cell `(i, j)`; out-of-range reads default to 0 (never exercised by
the embedded code, which always indexes in range). Mirrors `grid[i, j]`. -/
def getCell (g : Grid) (i j : Nat) : Nat := (g.getD i []).getD j 0

/-- Write value `v` at cell `(i, j)`. Mirrors `grid[i, j] = v`. -/
def setCell (g : Grid) (i j : Nat) (v : Nat) : Grid :=
  g.set i ((g.getD i []).set j v)

/-- Well-formedness: the grid has exactly `R` rows, each of length `C`. -/
def gridWF (g : Grid) (R C : Nat) : Prop :=
  g.length = R ∧ ∀ row ∈ g, row.length = C

instance gridWFDecidable (g : Grid) (R C : Nat) : Decidable (gridWF g R C) :=
  decidable_of_iff (g.length = R ∧ ∀ row ∈ g, row.length = C)
    (by unfold gridWF; exact Iff.rfl)

/-- All cell values are 0 or 1 (numpy stores 0.0/1.0; the code writes only
those two values). Stated via `getCell`, which covers every position. -/
def boolGrid (g : Grid) : Prop :=
  ∀ i j, getCell g i j = 0 ∨ getCell g i j = 1

/-- The toroidal index map: `x % n` with Python semantics (result in
`[0, n)` for positive `n`, also for negative `x`). Lean's `Int.emod`
has exactly Python's sign behavior for positive modulus. -/
def wrap (n : Nat) (x : Int) : Nat := (x % (n : Int)).toNat

/-- The eight neighbor offsets `(di, dj)` in the iteration order of
`for di in [-1, 0, 1] for dj in [-1, 0, 1] if (di, dj) != (0, 0)`. -/
def neighborOffsets : List (Int × Int) :=
  [(-1, -1), (-1, 0), (-1, 1), (0, -1), (0, 1), (1, -1), (1, 0), (1, 1)]

/-- The eight positions examined when counting neighbors of `(i, j)`:
`((i + di) % R, (j + dj) % C)` for each offset. -/
def neighborPositions (R C i j : Nat) : List (Nat × Nat) :=
  neighborOffsets.map (fun d => (wrap R ((i : Int) + d.1), wrap C ((j : Int) + d.2)))

/-- `neighbors = sum(grid[(i + di) % GRID_ROWS, (j + dj) % GRID_COLS] ...)`:
the live-neighbor count of cell `(i, j)` on the toroidal `R × C` grid. -/
def countLiveNeighbors (g : Grid) (R C i j : Nat) : Nat :=
  ((neighborPositions R C i j).map (fun p => getCell g p.1 p.2)).sum

/-- One iteration of the inner loop body of `update` on the state
`(grid, new_grid)`: reads (cell value and neighbor count) go to the first
component, the conditional write goes to the second. -/
def updateCell (R C : Nat) (p : Grid × Grid) (i j : Nat) : Grid × Grid :=
  let neighbors := countLiveNeighbors p.1 R C i j
  if getCell p.1 i j = 1 ∧ (neighbors < 2 ∨ neighbors > 3) then
    (p.1, setCell p.2 i j 0)
  else if getCell p.1 i j = 0 ∧ neighbors = 3 then
    (p.1, setCell p.2 i j 1)
  else p

/-- The double loop of `update`, acting on the state `(grid, new_grid)`
starting from `new_grid = grid.copy()` (copying a list value is the
identity). -/
def updatePair (R C : Nat) (g : Grid) : Grid × Grid :=
  (List.range R).foldl
    (fun p i => (List.range C).foldl (fun q j => updateCell R C q i j) p)
    (g, g)

/-- `update`: the next generation, i.e. the `new_grid` component after the
double loop. -/
def update (R C : Nat) (g : Grid) : Grid := (updatePair R C g).2

/-- `np.zeros((rows, cols))`: the all-DEAD grid. -/
def deadGrid (R C : Nat) : Grid := List.replicate R (List.replicate C 0)

/-- The seeding loop: `for i, j in cells: if 0 <= i < GRID_ROWS and
0 <= j < GRID_COLS: grid[i, j] = 1`. Coordinates are integers; only pairs
strictly inside `[0, R) × [0, C)` are written. -/
def seed (R C : Nat) (g : Grid) (coords : List (Int × Int)) : Grid :=
  coords.foldl
    (fun g c =>
      if 0 ≤ c.1 ∧ c.1 < (R : Int) ∧ 0 ≤ c.2 ∧ c.2 < (C : Int) then
        setCell g c.1.toNat c.2.toNat 1
      else g)
    g

/-- Error taxonomy of grid creation. -/
inductive CreateError where
  | invalidDimension
deriving DecidableEq, Repr

/-- Modelled from the spec: the source fixes `np.zeros((GRID_ROWS, GRID_COLS))`
with constant positive dimensions and has no parameterized constructor, so
the `create(rows, cols)` operation with its `InvalidDimension` failure is
modelled from the spec's words: "constraints — rows > 0, cols > 0; fails
with InvalidDimension if either is ≤ 0. Result: a Grid with all cells
DEAD." -/
def create (rows cols : Int) : Except CreateError Grid :=
  if rows ≤ 0 ∨ cols ≤ 0 then .error .invalidDimension
  else .ok (deadGrid rows.toNat cols.toNat)

/-- The "Blinker" pattern of the catalog `PATTERNS`. -/
def blinkerPattern : List (Int × Int) := [(30, 29), (30, 30), (30, 31)]

/-- The value the loop body writes at `(i, j)` (`none` when neither branch
of the conditional fires, so the copied value survives). -/
def writeVal (g : Grid) (R C i j : Nat) : Option Nat :=
  let n := countLiveNeighbors g R C i j
  if getCell g i j = 1 ∧ (n < 2 ∨ n > 3) then some 0
  else if getCell g i j = 0 ∧ n = 3 then some 1
  else none

/-- The next-generation value of cell `(i, j)`: the copied value, overridden
when one of the two rule branches fires. -/
def nextVal (g : Grid) (R C i j : Nat) : Nat :=
  (writeVal g R C i j).getD (getCell g i j)

/-- The inner loop over the first `k` columns of row `i`, acting on the
copy `ng` while reading from the frozen grid `g`. -/
def rowPassAux (g : Grid) (R C i k : Nat) (ng : Grid) : Grid :=
  (List.range k).foldl (fun ng j => (updateCell R C (g, ng) i j).2) ng

/-- The outer loop over the first `k` rows, each row processed by the full
inner loop over `C` columns. -/
def rowsPassAux (g : Grid) (R C k : Nat) (ng : Grid) : Grid :=
  (List.range k).foldl (fun ng i => rowPassAux g R C i C ng) ng

/-- Modelled from the spec (for C9): the four-case reference rule of §4.1,
recomputing every cell's next state from scratch from the current value and
the live-neighbor count alone. -/
def referenceNextState (g : Grid) (R C i j : Nat) : Nat :=
  if getCell g i j = 1 then
    if countLiveNeighbors g R C i j < 2 ∨ countLiveNeighbors g R C i j > 3
    then 0 else 1
  else
    if countLiveNeighbors g R C i j = 3 then 1 else 0

/-- A grid whose only live cells are the horizontal triple
`(r, c-1), (r, c), (r, c+1)` — the "blinker" shape of the pattern catalog,
seeded on an all-DEAD `R × C` grid. -/
def blinkerH (R C r c : Nat) : Grid :=
  seed R C (deadGrid R C)
    [((r : Int), (c : Int) - 1), ((r : Int), (c : Int)), ((r : Int), (c : Int) + 1)]

/-- The vertical phase of the blinker: live cells
`(r-1, c), (r, c), (r+1, c)`. -/
def blinkerV (R C r c : Nat) : Grid :=
  seed R C (deadGrid R C)
    [((r : Int) - 1, (c : Int)), ((r : Int), (c : Int)), ((r : Int) + 1, (c : Int))]

/-! ### Basic lemmas about cell access -/

theorem getD_set_of_ne {α : Type} (l : List α) (i j : Nat) (h : i ≠ j)
    (v : α) (d : α) : (l.set i v).getD j d = l.getD j d := by
  rcases Nat.lt_or_ge j l.length with hj | hj
  · rw [List.getD_eq_getElem _ _ (by simpa using hj), List.getD_eq_getElem _ _ hj]
    exact List.getElem_set_ne h _
  · rw [List.getD_eq_default _ _ (by simpa using hj), List.getD_eq_default _ _ hj]

theorem getD_set_self {α : Type} (l : List α) (i : Nat) (h : i < l.length)
    (v : α) (d : α) : (l.set i v).getD i d = v := by
  rw [List.getD_eq_getElem _ _ (by simpa using h)]
  exact List.getElem_set_self (by simpa using h)

theorem length_setCell (g : Grid) (i j v : Nat) :
    (setCell g i j v).length = g.length := by
  simp [setCell]

theorem gridWF_setCell {g : Grid} {R C : Nat} (hw : gridWF g R C)
    (i j v : Nat) : gridWF (setCell g i j v) R C := by
  obtain ⟨hlen, hrow⟩ := hw
  unfold setCell
  rcases Nat.lt_or_ge i g.length with hi | hi
  · refine ⟨by simp [hlen], ?_⟩
    intro row hmem
    rcases List.mem_or_eq_of_mem_set hmem with h | h
    · exact hrow row h
    · subst h
      rw [List.length_set, List.getD_eq_getElem _ _ hi]
      exact hrow _ (List.getElem_mem hi)
  · rw [List.set_eq_of_length_le hi]
    exact ⟨hlen, hrow⟩

theorem getCell_setCell_ne {g : Grid} {i j i' j' : Nat}
    (h : i ≠ i' ∨ j ≠ j') (v : Nat) :
    getCell (setCell g i j v) i' j' = getCell g i' j' := by
  rcases h with h | h
  · unfold getCell setCell
    rw [getD_set_of_ne _ _ _ h]
  · rcases eq_or_ne i i' with rfl | hii
    · unfold getCell setCell
      rcases Nat.lt_or_ge i g.length with hi | hi
      · rw [getD_set_self _ _ hi, getD_set_of_ne _ _ _ h]
      · rw [List.set_eq_of_length_le hi]
    · unfold getCell setCell
      rw [getD_set_of_ne _ _ _ hii]

theorem getCell_setCell_self {g : Grid} {R C i j : Nat} (hw : gridWF g R C)
    (hi : i < R) (hj : j < C) (v : Nat) :
    getCell (setCell g i j v) i j = v := by
  obtain ⟨hlen, hrow⟩ := hw
  have hig : i < g.length := by omega
  unfold getCell setCell
  rw [getD_set_self _ _ hig]
  have hlenrow : (g.getD i []).length = C := by
    rw [List.getD_eq_getElem _ _ hig]
    exact hrow _ (List.getElem_mem hig)
  exact getD_set_self _ _ (by omega) _ _

theorem getCell_out_of_range {g : Grid} {R C : Nat} (hw : gridWF g R C)
    {i j : Nat} (h : R ≤ i ∨ C ≤ j) : getCell g i j = 0 := by
  obtain ⟨hlen, hrow⟩ := hw
  unfold getCell
  rcases Nat.lt_or_ge i g.length with hi | hi
  · have hlenrow : (g.getD i []).length = C := by
      rw [List.getD_eq_getElem _ _ hi]
      exact hrow _ (List.getElem_mem hi)
    rcases h with h | h
    · omega
    · rw [List.getD_eq_default _ _ (by omega)]
  · rw [List.getD_eq_default _ _ hi]
    simp

theorem getCell_deadGrid (R C i j : Nat) : getCell (deadGrid R C) i j = 0 := by
  unfold getCell deadGrid
  rcases Nat.lt_or_ge i R with hi | hi
  · rw [List.getD_eq_getElem _ [] (by simpa using hi), List.getElem_replicate]
    rcases Nat.lt_or_ge j C with hj | hj
    · rw [List.getD_eq_getElem _ 0 (by simpa using hj), List.getElem_replicate]
    · exact List.getD_eq_default _ _ (by simpa using hj)
  · rw [List.getD_eq_default _ [] (by simpa using hi)]
    simp

theorem gridWF_deadGrid (R C : Nat) : gridWF (deadGrid R C) R C := by
  constructor
  · simp [deadGrid]
  · intro row hmem
    rw [List.eq_of_mem_replicate hmem]
    simp

theorem grid_ext {g g' : Grid} {R C : Nat} (h1 : gridWF g R C)
    (h2 : gridWF g' R C)
    (h : ∀ i < R, ∀ j < C, getCell g i j = getCell g' i j) : g = g' := by
  obtain ⟨hl1, hr1⟩ := h1
  obtain ⟨hl2, hr2⟩ := h2
  apply List.ext_getElem (by omega)
  intro i hi1 hi2
  apply List.ext_getElem
  · rw [hr1 _ (List.getElem_mem hi1), hr2 _ (List.getElem_mem hi2)]
  · intro j hj1 hj2
    have hiR : i < R := by omega
    have hjC : j < C := by
      have := hr1 _ (List.getElem_mem hi1)
      omega
    have e := h i hiR j hjC
    unfold getCell at e
    rw [List.getD_eq_getElem _ _ hi1, List.getD_eq_getElem _ _ hi2,
      List.getD_eq_getElem _ _ hj1, List.getD_eq_getElem _ _ hj2] at e
    exact e

/-! ### The update loop: writes go only to the copy -/

theorem updateCell_fst (R C : Nat) (p : Grid × Grid) (i j : Nat) :
    (updateCell R C p i j).1 = p.1 := by
  unfold updateCell
  by_cases h1 : getCell p.1 i j = 1 ∧
      (countLiveNeighbors p.1 R C i j < 2 ∨ countLiveNeighbors p.1 R C i j > 3)
  · simp [h1]
  · by_cases h2 : getCell p.1 i j = 0 ∧ countLiveNeighbors p.1 R C i j = 3
    · simp [h1, h2]
    · simp [h1, h2]

/-- A fold whose step never changes the first component splits into the
unchanged first component and a fold on the second. -/
theorem foldl_pair_split {α : Type} (F : Grid × Grid → α → Grid × Grid)
    (hF : ∀ q x, (F q x).1 = q.1) (l : List α) (p : Grid × Grid) :
    l.foldl F p = (p.1, l.foldl (fun ng x => (F (p.1, ng) x).2) p.2) := by
  induction l generalizing p with
  | nil => simp
  | cons x l ih =>
    simp only [List.foldl_cons]
    rw [ih]
    have h1 : (F p x).1 = p.1 := hF p x
    have h2 : F (p.1, p.2) x = F p x := by rw [Prod.mk.eta]
    rw [h2, h1]

/-- The step applied to the copy at cell `(i, j)`: a conditional write whose
value is read entirely from the frozen first grid `g`. -/
theorem updateCell_snd (R C : Nat) (g ng : Grid) (i j : Nat) :
    (updateCell R C (g, ng) i j).2 =
      match writeVal g R C i j with
      | some v => setCell ng i j v
      | none => ng := by
  unfold updateCell writeVal
  by_cases h1 : getCell g i j = 1 ∧
      (countLiveNeighbors g R C i j < 2 ∨ countLiveNeighbors g R C i j > 3)
  · simp [h1]
  · by_cases h2 : getCell g i j = 0 ∧ countLiveNeighbors g R C i j = 3
    · simp [h1, h2]
    · simp [h1, h2]

theorem gridWF_rowPassAux {g ng : Grid} {R C : Nat} (hw : gridWF ng R C)
    (i k : Nat) : gridWF (rowPassAux g R C i k ng) R C := by
  unfold rowPassAux
  induction k with
  | zero => simpa using hw
  | succ k ih =>
    rw [List.range_succ, List.foldl_append, List.foldl_cons, List.foldl_nil]
    rw [updateCell_snd]
    rcases writeVal g R C i k with _ | v
    · exact ih
    · exact gridWF_setCell ih _ _ _

theorem gridWF_rowsPassAux {g ng : Grid} {R C : Nat} (hw : gridWF ng R C)
    (k : Nat) : gridWF (rowsPassAux g R C k ng) R C := by
  unfold rowsPassAux
  induction k with
  | zero => simpa using hw
  | succ k ih =>
    rw [List.range_succ, List.foldl_append, List.foldl_cons, List.foldl_nil]
    exact gridWF_rowPassAux ih _ _

theorem rowPassAux_succ (g : Grid) (R C i k : Nat) (ng : Grid) :
    rowPassAux g R C i (k + 1) ng =
      (updateCell R C (g, rowPassAux g R C i k ng) i k).2 := by
  unfold rowPassAux
  rw [List.range_succ, List.foldl_append, List.foldl_cons, List.foldl_nil]

theorem rowsPassAux_succ (g : Grid) (R C k : Nat) (ng : Grid) :
    rowsPassAux g R C (k + 1) ng =
      rowPassAux g R C k C (rowsPassAux g R C k ng) := by
  unfold rowsPassAux
  rw [List.range_succ, List.foldl_append, List.foldl_cons, List.foldl_nil]

theorem rowPassAux_get {g ng : Grid} {R C : Nat} (hw : gridWF ng R C)
    {i k : Nat} (hiR : i < R) (hkC : k ≤ C) (i' j' : Nat) :
    getCell (rowPassAux g R C i k ng) i' j' =
      if i' = i ∧ j' < k then (writeVal g R C i j').getD (getCell ng i j')
      else getCell ng i' j' := by
  induction k with
  | zero => simp [rowPassAux]
  | succ k ih =>
    have hk : k ≤ C := by omega
    have hwk : gridWF (rowPassAux g R C i k ng) R C := gridWF_rowPassAux hw i k
    have ihk := ih hk
    rw [rowPassAux_succ, updateCell_snd]
    rcases hv : writeVal g R C i k with _ | v
    · rw [ihk]
      by_cases h1 : i' = i ∧ j' < k
      · rw [if_pos h1, if_pos ⟨h1.1, by omega⟩]
      · rw [if_neg h1]
        by_cases h2 : i' = i ∧ j' < k + 1
        · have hjk : j' = k := by omega
          rw [if_pos h2, h2.1, hjk, hv]
          simp
        · rw [if_neg h2]
    · by_cases h0 : i' = i ∧ j' = k
      · rw [h0.1, h0.2, getCell_setCell_self hwk hiR (by omega),
          if_pos ⟨rfl, by omega⟩, hv]
        simp
      · have hne : i ≠ i' ∨ k ≠ j' := by
          by_cases hii : i' = i
          · exact Or.inr (fun hc => h0 ⟨hii, hc.symm⟩)
          · exact Or.inl (fun hc => hii hc.symm)
        rw [getCell_setCell_ne hne, ihk]
        by_cases h1 : i' = i ∧ j' < k
        · rw [if_pos h1, if_pos ⟨h1.1, by omega⟩]
        · rw [if_neg h1, if_neg (by
            intro hc
            have hjk : j' ≠ k := fun he => h0 ⟨hc.1, he⟩
            exact h1 ⟨hc.1, by omega⟩)]

theorem rowsPassAux_get {g ng : Grid} {R C : Nat} (hw : gridWF ng R C)
    {k : Nat} (hkR : k ≤ R) :
    ∀ i' j', getCell (rowsPassAux g R C k ng) i' j' =
      if i' < k ∧ j' < C then (writeVal g R C i' j').getD (getCell ng i' j')
      else getCell ng i' j' := by
  induction k with
  | zero => intro i' j'; simp [rowsPassAux]
  | succ k ih =>
    intro i' j'
    have hk : k ≤ R := by omega
    have hwk : gridWF (rowsPassAux g R C k ng) R C := gridWF_rowsPassAux hw k
    have ihk := ih hk
    rw [rowsPassAux_succ, rowPassAux_get hwk (by omega) le_rfl]
    by_cases h0 : i' = k ∧ j' < C
    · rw [if_pos h0, ihk k j', if_neg (by omega), if_pos (by omega), h0.1]
    · rw [if_neg h0, ihk i' j']
      by_cases h1 : i' < k ∧ j' < C
      · rw [if_pos h1, if_pos (by omega)]
      · rw [if_neg h1, if_neg (by
          intro hc
          rcases Nat.lt_or_ge i' k with h | h
          · exact h1 ⟨h, hc.2⟩
          · exact h0 ⟨by omega, hc.2⟩)]

/-- The pair
`(grid, new_grid)` after the double loop: the first component is the
untouched input, the second is `rowsPassAux` applied to the copy. -/
theorem updatePair_eq (R C : Nat) (g : Grid) :
    updatePair R C g = (g, rowsPassAux g R C R g) := by
  have hF : ∀ (l : List Nat) (q : Grid × Grid) (i : Nat),
      (l.foldl (fun q j => updateCell R C q i j) q).1 = q.1 := by
    intro l
    induction l with
    | nil => intro q i; rfl
    | cons x l ih => intro q i; rw [List.foldl_cons, ih, updateCell_fst]
  unfold updatePair
  rw [foldl_pair_split _ (fun q i => hF (List.range C) q i)]
  have hstep : (fun (ng : Grid) (i : Nat) =>
      ((List.range C).foldl (fun q j => updateCell R C q i j) ((g, g).1, ng)).2) =
      fun ng i => rowPassAux g R C i C ng := by
    funext ng i
    rw [foldl_pair_split _ (fun q x => updateCell_fst R C q i x)]
    rfl
  rw [hstep]
  rfl

theorem gridWF_update {g : Grid} {R C : Nat} (hw : gridWF g R C) :
    gridWF (update R C g) R C := by
  unfold update
  rw [updatePair_eq]
  exact gridWF_rowsPassAux hw R

/-- Pointwise characterization of `update`: cell `(i, j)` of the next
generation is the copied value overridden by the conditional writes, all of
whose reads (cell value and neighbor count) are from the input generation. -/
theorem update_get {g : Grid} {R C : Nat} (hw : gridWF g R C)
    {i j : Nat} (hi : i < R) (hj : j < C) :
    getCell (update R C g) i j = nextVal g R C i j := by
  unfold update nextVal
  rw [updatePair_eq]
  have h := @rowsPassAux_get g g R C hw R le_rfl i j
  show getCell (rowsPassAux g R C R g) i j = _
  rw [h, if_pos ⟨hi, hj⟩]

/-- `nextVal` unfolded into the if-structure of the loop body. -/
theorem nextVal_eq (g : Grid) (R C i j : Nat) :
    nextVal g R C i j =
      if getCell g i j = 1 ∧ (countLiveNeighbors g R C i j < 2 ∨
          countLiveNeighbors g R C i j > 3) then 0
      else if getCell g i j = 0 ∧ countLiveNeighbors g R C i j = 3 then 1
      else getCell g i j := by
  unfold nextVal writeVal
  by_cases h1 : getCell g i j = 1 ∧ (countLiveNeighbors g R C i j < 2 ∨
      countLiveNeighbors g R C i j > 3)
  · simp [h1]
  · by_cases h2 : getCell g i j = 0 ∧ countLiveNeighbors g R C i j = 3
    · simp [h1, h2]
    · simp [h1, h2]

/-! ### Wraparound arithmetic -/

theorem wrap_nat {n i : Nat} (h : i < n) : wrap n (i : Int) = i := by
  unfold wrap
  rw [Int.emod_eq_of_lt (by omega) (by exact_mod_cast h)]
  simp

theorem wrap_add_one {n i : Nat} (h : i < n) :
    wrap n ((i : Int) + 1) = if i + 1 = n then 0 else i + 1 := by
  unfold wrap
  by_cases he : i + 1 = n
  · have : (i : Int) + 1 = (n : Int) := by exact_mod_cast congrArg Nat.cast he
    rw [this, Int.emod_self]
    simp [he]
  · have hlt : i + 1 < n := by omega
    rw [Int.emod_eq_of_lt (by omega) (by exact_mod_cast hlt)]
    simp [he]

theorem wrap_sub_one {n i : Nat} (h : i < n) :
    wrap n ((i : Int) - 1) = if i = 0 then n - 1 else i - 1 := by
  unfold wrap
  by_cases he : i = 0
  · subst he
    have h1 : ((0 : Nat) : Int) - 1 = ((n : Int) - 1) + (n : Int) * (-1) := by ring
    rw [h1, Int.add_mul_emod_self_left,
      Int.emod_eq_of_lt (by omega) (by omega)]
    simp
  · have hlt : (i : Int) - 1 < n := by omega
    rw [Int.emod_eq_of_lt (by omega) hlt]
    simp [he]

theorem wrap_add_neg_one {n i : Nat} (h : i < n) :
    wrap n ((i : Int) + -1) = if i = 0 then n - 1 else i - 1 := by
  rw [show (i : Int) + -1 = (i : Int) - 1 by ring]
  exact wrap_sub_one h

theorem wrap_add_zero {n i : Nat} (h : i < n) :
    wrap n ((i : Int) + 0) = i := by
  rw [add_zero]
  exact wrap_nat h

theorem wrap_lt {n : Nat} (hn : 0 < n) (x : Int) : wrap n x < n := by
  unfold wrap
  have h1 : 0 ≤ x % (n : Int) :=
    Int.emod_nonneg x (by exact_mod_cast Nat.pos_iff_ne_zero.mp hn)
  have h2 : x % (n : Int) < (n : Int) :=
    Int.emod_lt_of_pos x (by exact_mod_cast hn)
  omega

/-! ### Cell values are 0 or 1 -/

theorem getCell_le_one {g : Grid} (hb : boolGrid g) (i j : Nat) :
    getCell g i j ≤ 1 := by
  rcases hb i j with h | h <;> omega

theorem countLiveNeighbors_le_eight {g : Grid} (hb : boolGrid g)
    (R C i j : Nat) : countLiveNeighbors g R C i j ≤ 8 := by
  unfold countLiveNeighbors neighborPositions neighborOffsets
  simp only [List.map_cons, List.map_nil, List.sum_cons, List.sum_nil]
  have h1 := getCell_le_one hb (wrap R ((i : Int) + -1)) (wrap C ((j : Int) + -1))
  have h2 := getCell_le_one hb (wrap R ((i : Int) + -1)) (wrap C ((j : Int) + 0))
  have h3 := getCell_le_one hb (wrap R ((i : Int) + -1)) (wrap C ((j : Int) + 1))
  have h4 := getCell_le_one hb (wrap R ((i : Int) + 0)) (wrap C ((j : Int) + -1))
  have h5 := getCell_le_one hb (wrap R ((i : Int) + 0)) (wrap C ((j : Int) + 1))
  have h6 := getCell_le_one hb (wrap R ((i : Int) + 1)) (wrap C ((j : Int) + -1))
  have h7 := getCell_le_one hb (wrap R ((i : Int) + 1)) (wrap C ((j : Int) + 0))
  have h8 := getCell_le_one hb (wrap R ((i : Int) + 1)) (wrap C ((j : Int) + 1))
  omega

theorem getCell_setCell_or (g : Grid) (i j v i' j' : Nat) :
    getCell (setCell g i j v) i' j' = getCell g i' j' ∨
      getCell (setCell g i j v) i' j' = v := by
  by_cases h : i = i' ∧ j = j'
  · obtain ⟨rfl, rfl⟩ := h
    rcases Nat.lt_or_ge i g.length with hi | hi
    · rcases Nat.lt_or_ge j (g.getD i []).length with hj | hj
      · right
        unfold getCell setCell
        rw [getD_set_self _ _ hi, getD_set_self _ _ hj]
      · left
        unfold getCell setCell
        rw [getD_set_self _ _ hi, List.set_eq_of_length_le hj]
    · left
      unfold setCell
      rw [List.set_eq_of_length_le hi]
  · left
    apply getCell_setCell_ne
    by_cases hii : i = i'
    · exact Or.inr (fun hc => h ⟨hii, hc⟩)
    · exact Or.inl hii

theorem boolGrid_deadGrid (R C : Nat) : boolGrid (deadGrid R C) := by
  intro i j
  left
  exact getCell_deadGrid R C i j

theorem boolGrid_setCell_one {g : Grid} (hb : boolGrid g) (i j : Nat) :
    boolGrid (setCell g i j 1) := by
  intro i' j'
  rcases getCell_setCell_or g i j 1 i' j' with h | h
  · rw [h]; exact hb i' j'
  · rw [h]; right; rfl

theorem boolGrid_seed {g : Grid} (hb : boolGrid g) (R C : Nat)
    (coords : List (Int × Int)) : boolGrid (seed R C g coords) := by
  induction coords generalizing g with
  | nil => exact hb
  | cons c l ih =>
    unfold seed
    rw [List.foldl_cons]
    by_cases hc : 0 ≤ c.1 ∧ c.1 < (R : Int) ∧ 0 ≤ c.2 ∧ c.2 < (C : Int)
    · rw [if_pos hc]
      exact ih (boolGrid_setCell_one hb _ _)
    · rw [if_neg hc]
      exact ih hb

theorem boolGrid_update {g : Grid} {R C : Nat} (hw : gridWF g R C)
    (hb : boolGrid g) : boolGrid (update R C g) := by
  intro i j
  by_cases h : i < R ∧ j < C
  · rw [update_get hw h.1 h.2, nextVal_eq]
    by_cases h1 : getCell g i j = 1 ∧ (countLiveNeighbors g R C i j < 2 ∨
        countLiveNeighbors g R C i j > 3)
    · simp [h1]
    · by_cases h2 : getCell g i j = 0 ∧ countLiveNeighbors g R C i j = 3
      · simp [h1, h2]
      · rw [if_neg h1, if_neg h2]
        exact hb i j
  · left
    exact getCell_out_of_range (gridWF_update hw) (by omega)

/-! ### Seeding -/

theorem gridWF_seed {g : Grid} {R C : Nat} (hw : gridWF g R C)
    (coords : List (Int × Int)) : gridWF (seed R C g coords) R C := by
  induction coords generalizing g with
  | nil => exact hw
  | cons c l ih =>
    unfold seed
    rw [List.foldl_cons]
    by_cases hc : 0 ≤ c.1 ∧ c.1 < (R : Int) ∧ 0 ≤ c.2 ∧ c.2 < (C : Int)
    · rw [if_pos hc]
      exact ih (gridWF_setCell hw _ _ _)
    · rw [if_neg hc]
      exact ih hw

/-- What `seed` does to an in-bounds cell: it becomes ALIVE exactly when its
coordinate pair occurs in the list, and keeps its previous value otherwise.
Out-of-range pairs in the list change nothing. -/
theorem seed_get {g : Grid} {R C : Nat} (hw : gridWF g R C)
    (coords : List (Int × Int)) {i j : Nat} (hi : i < R) (hj : j < C) :
    getCell (seed R C g coords) i j =
      if ((i : Int), (j : Int)) ∈ coords then 1 else getCell g i j := by
  induction coords generalizing g with
  | nil => simp [seed]
  | cons c l ih =>
    unfold seed
    rw [List.foldl_cons]
    by_cases hc : 0 ≤ c.1 ∧ c.1 < (R : Int) ∧ 0 ≤ c.2 ∧ c.2 < (C : Int)
    · rw [if_pos hc]
      by_cases hcij : c = ((i : Int), (j : Int))
      · have h1 : c.1.toNat = i := by rw [hcij]; simp
        have h2 : c.2.toNat = j := by rw [hcij]; simp
        rw [h1, h2]
        have hset := ih (gridWF_setCell hw i j 1)
        unfold seed at hset
        rw [hset, if_pos (show ((i : Int), (j : Int)) ∈ c :: l by
          rw [hcij]; exact List.mem_cons_self _ _)]
        by_cases hmem : ((i : Int), (j : Int)) ∈ l
        · rw [if_pos hmem]
        · rw [if_neg hmem, getCell_setCell_self hw hi hj]
      · have hne : c.1.toNat ≠ i ∨ c.2.toNat ≠ j := by
          by_contra hcon
          push_neg at hcon
          apply hcij
          have e1 : c.1 = (i : Int) := by
            rw [← hcon.1, Int.toNat_of_nonneg hc.1]
          have e2 : c.2 = (j : Int) := by
            rw [← hcon.2, Int.toNat_of_nonneg hc.2.2.1]
          exact Prod.ext e1 e2
        have hset := ih (gridWF_setCell hw c.1.toNat c.2.toNat 1)
        unfold seed at hset
        rw [hset, getCell_setCell_ne hne]
        have hiff : (((i : Int), (j : Int)) ∈ c :: l) ↔
            (((i : Int), (j : Int)) ∈ l) := by
          rw [List.mem_cons]
          constructor
          · rintro (h | h)
            · exact absurd h.symm hcij
            · exact h
          · exact Or.inr
        rw [if_congr hiff rfl rfl]
    · rw [if_neg hc]
      have hcij : c ≠ ((i : Int), (j : Int)) := by
        intro he
        apply hc
        rw [he]
        refine ⟨Int.natCast_nonneg i, show (i : Int) < (R : Int) by exact_mod_cast hi,
          Int.natCast_nonneg j, show (j : Int) < (C : Int) by exact_mod_cast hj⟩
      have hset := ih hw
      unfold seed at hset
      rw [hset]
      have hiff : (((i : Int), (j : Int)) ∈ c :: l) ↔
          (((i : Int), (j : Int)) ∈ l) := by
        rw [List.mem_cons]
        constructor
        · rintro (h | h)
          · exact absurd h.symm hcij
          · exact h
        · exact Or.inr
      rw [if_congr hiff rfl rfl]

/-- `seed` with a list of exclusively out-of-range coordinate pairs is the
identity: no cell, in bounds or out, is altered, and no error is raised. -/
theorem seed_noop {g : Grid} {R C : Nat} :
    ∀ coords : List (Int × Int),
      (∀ c ∈ coords, ¬(0 ≤ c.1 ∧ c.1 < (R : Int) ∧ 0 ≤ c.2 ∧ c.2 < (C : Int))) →
      seed R C g coords = g := by
  intro coords
  induction coords with
  | nil => intro _; rfl
  | cons c l ih =>
    intro hall
    unfold seed
    rw [List.foldl_cons, if_neg (hall c (List.mem_cons_self c l))]
    exact ih (fun c' hc' => hall c' (List.mem_cons.mpr (Or.inr hc')))

/-! ### Blinker machinery -/

theorem blinkerH_get {R C r c : Nat} {i j : Nat} (hi : i < R) (hj : j < C) :
    getCell (blinkerH R C r c) i j =
      if i = r ∧ (j + 1 = c ∨ j = c ∨ j = c + 1) then 1 else 0 := by
  unfold blinkerH
  rw [seed_get (gridWF_deadGrid R C) _ hi hj, getCell_deadGrid]
  have hiff : (((i : Int), (j : Int)) ∈
      [((r : Int), (c : Int) - 1), ((r : Int), (c : Int)),
        ((r : Int), (c : Int) + 1)]) ↔
      (i = r ∧ (j + 1 = c ∨ j = c ∨ j = c + 1)) := by
    simp only [List.mem_cons, List.not_mem_nil, or_false, Prod.mk.injEq]
    omega
  rw [if_congr hiff rfl rfl]

theorem blinkerV_get {R C r c : Nat} {i j : Nat} (hi : i < R) (hj : j < C) :
    getCell (blinkerV R C r c) i j =
      if (i + 1 = r ∨ i = r ∨ i = r + 1) ∧ j = c then 1 else 0 := by
  unfold blinkerV
  rw [seed_get (gridWF_deadGrid R C) _ hi hj, getCell_deadGrid]
  have hiff : (((i : Int), (j : Int)) ∈
      [((r : Int) - 1, (c : Int)), ((r : Int), (c : Int)),
        ((r : Int) + 1, (c : Int))]) ↔
      ((i + 1 = r ∨ i = r ∨ i = r + 1) ∧ j = c) := by
    simp only [List.mem_cons, List.not_mem_nil, or_false, Prod.mk.injEq]
    omega
  rw [if_congr hiff rfl rfl]

theorem wrap_hit_m1 {n x m : Nat} (hx : x < n) (hm : 2 ≤ m) (hmn : m + 2 < n) :
    (wrap n ((x : Int) + -1) = m) ↔ x = m + 1 := by
  rw [wrap_add_neg_one hx]
  split_ifs <;> omega

theorem wrap_hit_0 {n x m : Nat} (hx : x < n) :
    (wrap n ((x : Int) + 0) = m) ↔ x = m := by
  rw [wrap_add_zero hx]

theorem wrap_hit_p1 {n x m : Nat} (hx : x < n) (hm : 2 ≤ m) (hmn : m + 2 < n) :
    (wrap n ((x : Int) + 1) = m) ↔ x + 1 = m := by
  rw [wrap_add_one hx]
  split_ifs <;> omega

theorem wrap_window_m1 {n x m : Nat} (hx : x < n) (hm : 2 ≤ m)
    (hmn : m + 2 < n) :
    (wrap n ((x : Int) + -1) + 1 = m ∨ wrap n ((x : Int) + -1) = m ∨
      wrap n ((x : Int) + -1) = m + 1) ↔ (x = m ∨ x = m + 1 ∨ x = m + 2) := by
  rw [wrap_add_neg_one hx]
  split_ifs <;> omega

theorem wrap_window_0 {n x m : Nat} (hx : x < n) :
    (wrap n ((x : Int) + 0) + 1 = m ∨ wrap n ((x : Int) + 0) = m ∨
      wrap n ((x : Int) + 0) = m + 1) ↔ (x + 1 = m ∨ x = m ∨ x = m + 1) := by
  rw [wrap_add_zero hx]

theorem wrap_window_p1 {n x m : Nat} (hx : x < n) (hm : 2 ≤ m)
    (hmn : m + 2 < n) :
    (wrap n ((x : Int) + 1) + 1 = m ∨ wrap n ((x : Int) + 1) = m ∨
      wrap n ((x : Int) + 1) = m + 1) ↔ (x + 2 = m ∨ x + 1 = m ∨ x = m) := by
  rw [wrap_add_one hx]
  split_ifs <;> (try simp only [or_false, false_or]) <;> omega

/-- The neighbor count written out as the sum of the eight examined cells. -/
theorem count_expand (g : Grid) (R C i j : Nat) :
    countLiveNeighbors g R C i j =
      getCell g (wrap R ((i : Int) + -1)) (wrap C ((j : Int) + -1)) +
      (getCell g (wrap R ((i : Int) + -1)) (wrap C ((j : Int) + 0)) +
      (getCell g (wrap R ((i : Int) + -1)) (wrap C ((j : Int) + 1)) +
      (getCell g (wrap R ((i : Int) + 0)) (wrap C ((j : Int) + -1)) +
      (getCell g (wrap R ((i : Int) + 0)) (wrap C ((j : Int) + 1)) +
      (getCell g (wrap R ((i : Int) + 1)) (wrap C ((j : Int) + -1)) +
      (getCell g (wrap R ((i : Int) + 1)) (wrap C ((j : Int) + 0)) +
      getCell g (wrap R ((i : Int) + 1)) (wrap C ((j : Int) + 1)))))))) := by
  simp [countLiveNeighbors, neighborPositions, neighborOffsets]

/-- Closed form of the neighbor count of the horizontal blinker, away from
the grid edges: each of the eight examined cells contributes an indicator
in plain linear arithmetic on `i, j, r, c`. -/
theorem count_blinkerH {R C r c : Nat} (hr : 2 ≤ r) (hrR : r + 2 < R)
    (hc : 2 ≤ c) (hcC : c + 2 < C) {i j : Nat} (hi : i < R) (hj : j < C) :
    countLiveNeighbors (blinkerH R C r c) R C i j =
      (if i = r + 1 ∧ (j = c ∨ j = c + 1 ∨ j = c + 2) then 1 else 0) +
      ((if i = r + 1 ∧ (j + 1 = c ∨ j = c ∨ j = c + 1) then 1 else 0) +
      ((if i = r + 1 ∧ (j + 2 = c ∨ j + 1 = c ∨ j = c) then 1 else 0) +
      ((if i = r ∧ (j = c ∨ j = c + 1 ∨ j = c + 2) then 1 else 0) +
      ((if i = r ∧ (j + 2 = c ∨ j + 1 = c ∨ j = c) then 1 else 0) +
      ((if i + 1 = r ∧ (j = c ∨ j = c + 1 ∨ j = c + 2) then 1 else 0) +
      ((if i + 1 = r ∧ (j + 1 = c ∨ j = c ∨ j = c + 1) then 1 else 0) +
      (if i + 1 = r ∧ (j + 2 = c ∨ j + 1 = c ∨ j = c) then 1 else 0))))))) := by
  have hR0 : 0 < R := by omega
  have hC0 : 0 < C := by omega
  rw [count_expand]
  rw [blinkerH_get (wrap_lt hR0 ((i : Int) + -1)) (wrap_lt hC0 ((j : Int) + -1)),
    blinkerH_get (wrap_lt hR0 ((i : Int) + -1)) (wrap_lt hC0 ((j : Int) + 0)),
    blinkerH_get (wrap_lt hR0 ((i : Int) + -1)) (wrap_lt hC0 ((j : Int) + 1)),
    blinkerH_get (wrap_lt hR0 ((i : Int) + 0)) (wrap_lt hC0 ((j : Int) + -1)),
    blinkerH_get (wrap_lt hR0 ((i : Int) + 0)) (wrap_lt hC0 ((j : Int) + 1)),
    blinkerH_get (wrap_lt hR0 ((i : Int) + 1)) (wrap_lt hC0 ((j : Int) + -1)),
    blinkerH_get (wrap_lt hR0 ((i : Int) + 1)) (wrap_lt hC0 ((j : Int) + 0)),
    blinkerH_get (wrap_lt hR0 ((i : Int) + 1)) (wrap_lt hC0 ((j : Int) + 1))]
  rw [if_congr (and_congr (wrap_hit_m1 hi hr hrR) (wrap_window_m1 hj hc hcC)) rfl rfl,
    if_congr (and_congr (wrap_hit_m1 hi hr hrR) (wrap_window_0 hj)) rfl rfl,
    if_congr (and_congr (wrap_hit_m1 hi hr hrR) (wrap_window_p1 hj hc hcC)) rfl rfl,
    if_congr (and_congr (wrap_hit_0 hi) (wrap_window_m1 hj hc hcC)) rfl rfl,
    if_congr (and_congr (wrap_hit_0 hi) (wrap_window_p1 hj hc hcC)) rfl rfl,
    if_congr (and_congr (wrap_hit_p1 hi hr hrR) (wrap_window_m1 hj hc hcC)) rfl rfl,
    if_congr (and_congr (wrap_hit_p1 hi hr hrR) (wrap_window_0 hj)) rfl rfl,
    if_congr (and_congr (wrap_hit_p1 hi hr hrR) (wrap_window_p1 hj hc hcC)) rfl rfl]

/-- Closed form of the neighbor count of the vertical blinker, away from
the grid edges. -/
theorem count_blinkerV {R C r c : Nat} (hr : 2 ≤ r) (hrR : r + 2 < R)
    (hc : 2 ≤ c) (hcC : c + 2 < C) {i j : Nat} (hi : i < R) (hj : j < C) :
    countLiveNeighbors (blinkerV R C r c) R C i j =
      (if (i = r ∨ i = r + 1 ∨ i = r + 2) ∧ j = c + 1 then 1 else 0) +
      ((if (i = r ∨ i = r + 1 ∨ i = r + 2) ∧ j = c then 1 else 0) +
      ((if (i = r ∨ i = r + 1 ∨ i = r + 2) ∧ j + 1 = c then 1 else 0) +
      ((if (i + 1 = r ∨ i = r ∨ i = r + 1) ∧ j = c + 1 then 1 else 0) +
      ((if (i + 1 = r ∨ i = r ∨ i = r + 1) ∧ j + 1 = c then 1 else 0) +
      ((if (i + 2 = r ∨ i + 1 = r ∨ i = r) ∧ j = c + 1 then 1 else 0) +
      ((if (i + 2 = r ∨ i + 1 = r ∨ i = r) ∧ j = c then 1 else 0) +
      (if (i + 2 = r ∨ i + 1 = r ∨ i = r) ∧ j + 1 = c then 1 else 0))))))) := by
  have hR0 : 0 < R := by omega
  have hC0 : 0 < C := by omega
  rw [count_expand]
  rw [blinkerV_get (wrap_lt hR0 ((i : Int) + -1)) (wrap_lt hC0 ((j : Int) + -1)),
    blinkerV_get (wrap_lt hR0 ((i : Int) + -1)) (wrap_lt hC0 ((j : Int) + 0)),
    blinkerV_get (wrap_lt hR0 ((i : Int) + -1)) (wrap_lt hC0 ((j : Int) + 1)),
    blinkerV_get (wrap_lt hR0 ((i : Int) + 0)) (wrap_lt hC0 ((j : Int) + -1)),
    blinkerV_get (wrap_lt hR0 ((i : Int) + 0)) (wrap_lt hC0 ((j : Int) + 1)),
    blinkerV_get (wrap_lt hR0 ((i : Int) + 1)) (wrap_lt hC0 ((j : Int) + -1)),
    blinkerV_get (wrap_lt hR0 ((i : Int) + 1)) (wrap_lt hC0 ((j : Int) + 0)),
    blinkerV_get (wrap_lt hR0 ((i : Int) + 1)) (wrap_lt hC0 ((j : Int) + 1))]
  rw [if_congr (and_congr (wrap_window_m1 hi hr hrR) (wrap_hit_m1 hj hc hcC)) rfl rfl,
    if_congr (and_congr (wrap_window_m1 hi hr hrR) (wrap_hit_0 hj)) rfl rfl,
    if_congr (and_congr (wrap_window_m1 hi hr hrR) (wrap_hit_p1 hj hc hcC)) rfl rfl,
    if_congr (and_congr (wrap_window_0 hi) (wrap_hit_m1 hj hc hcC)) rfl rfl,
    if_congr (and_congr (wrap_window_0 hi) (wrap_hit_p1 hj hc hcC)) rfl rfl,
    if_congr (and_congr (wrap_window_p1 hi hr hrR) (wrap_hit_m1 hj hc hcC)) rfl rfl,
    if_congr (and_congr (wrap_window_p1 hi hr hrR) (wrap_hit_0 hj)) rfl rfl,
    if_congr (and_congr (wrap_window_p1 hi hr hrR) (wrap_hit_p1 hj hc hcC)) rfl rfl]

/-- One step: the horizontal blinker becomes the vertical blinker. -/
theorem update_blinkerH {R C r c : Nat} (hr : 2 ≤ r) (hrR : r + 2 < R)
    (hc : 2 ≤ c) (hcC : c + 2 < C) :
    update R C (blinkerH R C r c) = blinkerV R C r c := by
  have hwH : gridWF (blinkerH R C r c) R C :=
    gridWF_seed (gridWF_deadGrid R C) _
  have hwV : gridWF (blinkerV R C r c) R C :=
    gridWF_seed (gridWF_deadGrid R C) _
  apply grid_ext (gridWF_update hwH) hwV
  intro i hi j hj
  rw [update_get hwH hi hj, nextVal_eq, count_blinkerH hr hrR hc hcC hi hj,
    blinkerH_get hi hj, blinkerV_get hi hj]
  rcases (show i + 1 = r ∨ i = r ∨ i = r + 1 ∨ (i + 1 ≠ r ∧ i ≠ r ∧ i ≠ r + 1)
      by omega) with hri | hri | hri | ⟨hra, hrb, hrc⟩
  case _ =>
    subst hri
    rcases (show j + 2 = c ∨ j + 1 = c ∨ j = c ∨ j = c + 1 ∨ j = c + 2 ∨
        (j + 2 ≠ c ∧ j + 1 ≠ c ∧ j ≠ c ∧ j ≠ c + 1 ∧ j ≠ c + 2) by omega) with
      hcj | hcj | hcj | hcj | hcj | ⟨hca, hcb, hcc, hcd, hce⟩ <;>
      [subst hcj; subst hcj; subst hcj; subst hcj; subst hcj;
        simp only [eq_false hca, eq_false hcb, eq_false hcc, eq_false hcd,
          eq_false hce, false_or, and_false, false_and]] <;>
      simp_arith
  case _ =>
    subst hri
    rcases (show j + 2 = c ∨ j + 1 = c ∨ j = c ∨ j = c + 1 ∨ j = c + 2 ∨
        (j + 2 ≠ c ∧ j + 1 ≠ c ∧ j ≠ c ∧ j ≠ c + 1 ∧ j ≠ c + 2) by omega) with
      hcj | hcj | hcj | hcj | hcj | ⟨hca, hcb, hcc, hcd, hce⟩ <;>
      [subst hcj; subst hcj; subst hcj; subst hcj; subst hcj;
        simp only [eq_false hca, eq_false hcb, eq_false hcc, eq_false hcd,
          eq_false hce, false_or, and_false, false_and]] <;>
      simp_arith
  case _ =>
    subst hri
    rcases (show j + 2 = c ∨ j + 1 = c ∨ j = c ∨ j = c + 1 ∨ j = c + 2 ∨
        (j + 2 ≠ c ∧ j + 1 ≠ c ∧ j ≠ c ∧ j ≠ c + 1 ∧ j ≠ c + 2) by omega) with
      hcj | hcj | hcj | hcj | hcj | ⟨hca, hcb, hcc, hcd, hce⟩ <;>
      [subst hcj; subst hcj; subst hcj; subst hcj; subst hcj;
        simp only [eq_false hca, eq_false hcb, eq_false hcc, eq_false hcd,
          eq_false hce, false_or, and_false, false_and]] <;>
      simp_arith
  case _ =>
    simp only [eq_false hra, eq_false hrb, eq_false hrc, false_and, false_or,
      if_false]
    simp_arith

/-- One step: the vertical blinker becomes the horizontal blinker. -/
theorem update_blinkerV {R C r c : Nat} (hr : 2 ≤ r) (hrR : r + 2 < R)
    (hc : 2 ≤ c) (hcC : c + 2 < C) :
    update R C (blinkerV R C r c) = blinkerH R C r c := by
  have hwH : gridWF (blinkerH R C r c) R C :=
    gridWF_seed (gridWF_deadGrid R C) _
  have hwV : gridWF (blinkerV R C r c) R C :=
    gridWF_seed (gridWF_deadGrid R C) _
  apply grid_ext (gridWF_update hwV) hwH
  intro i hi j hj
  rw [update_get hwV hi hj, nextVal_eq, count_blinkerV hr hrR hc hcC hi hj,
    blinkerV_get hi hj, blinkerH_get hi hj]
  rcases (show i + 2 = r ∨ i + 1 = r ∨ i = r ∨ i = r + 1 ∨ i = r + 2 ∨
      (i + 2 ≠ r ∧ i + 1 ≠ r ∧ i ≠ r ∧ i ≠ r + 1 ∧ i ≠ r + 2)
      by omega) with hri | hri | hri | hri | hri | ⟨hra, hrb, hrc, hrd, hre⟩
  case _ =>
    subst hri
    rcases (show j + 1 = c ∨ j = c ∨ j = c + 1 ∨
        (j + 1 ≠ c ∧ j ≠ c ∧ j ≠ c + 1) by omega) with
      hcj | hcj | hcj | ⟨hca, hcb, hcc⟩ <;>
      [subst hcj; subst hcj; subst hcj;
        simp only [eq_false hca, eq_false hcb, eq_false hcc, false_or,
          and_false, false_and]] <;>
      simp_arith
  case _ =>
    subst hri
    rcases (show j + 1 = c ∨ j = c ∨ j = c + 1 ∨
        (j + 1 ≠ c ∧ j ≠ c ∧ j ≠ c + 1) by omega) with
      hcj | hcj | hcj | ⟨hca, hcb, hcc⟩ <;>
      [subst hcj; subst hcj; subst hcj;
        simp only [eq_false hca, eq_false hcb, eq_false hcc, false_or,
          and_false, false_and]] <;>
      simp_arith
  case _ =>
    subst hri
    rcases (show j + 1 = c ∨ j = c ∨ j = c + 1 ∨
        (j + 1 ≠ c ∧ j ≠ c ∧ j ≠ c + 1) by omega) with
      hcj | hcj | hcj | ⟨hca, hcb, hcc⟩ <;>
      [subst hcj; subst hcj; subst hcj;
        simp only [eq_false hca, eq_false hcb, eq_false hcc, false_or,
          and_false, false_and]] <;>
      simp_arith
  case _ =>
    subst hri
    rcases (show j + 1 = c ∨ j = c ∨ j = c + 1 ∨
        (j + 1 ≠ c ∧ j ≠ c ∧ j ≠ c + 1) by omega) with
      hcj | hcj | hcj | ⟨hca, hcb, hcc⟩ <;>
      [subst hcj; subst hcj; subst hcj;
        simp only [eq_false hca, eq_false hcb, eq_false hcc, false_or,
          and_false, false_and]] <;>
      simp_arith
  case _ =>
    subst hri
    rcases (show j + 1 = c ∨ j = c ∨ j = c + 1 ∨
        (j + 1 ≠ c ∧ j ≠ c ∧ j ≠ c + 1) by omega) with
      hcj | hcj | hcj | ⟨hca, hcb, hcc⟩ <;>
      [subst hcj; subst hcj; subst hcj;
        simp only [eq_false hca, eq_false hcb, eq_false hcc, false_or,
          and_false, false_and]] <;>
      simp_arith
  case _ =>
    simp only [eq_false hra, eq_false hrb, eq_false hrc, eq_false hrd,
      eq_false hre, false_and, false_or, or_false, and_false, if_false]
    simp_arith

/-! ### The claims -/

/-- C1: for every well-formed 0/1 grid `G` and every in-range cell `(i, j)`,
the next generation applies exactly Conway's rule, with the neighbor count
read from the current generation `G` only: an ALIVE cell survives iff its
live-neighbor count is 2 or 3 (dies when the count is < 2 or > 3), a DEAD
cell becomes ALIVE iff the count is exactly 3; no other transition exists. -/
theorem update_applies_conway_rule {g : Grid} {R C : Nat}
    (hw : gridWF g R C) (hb : boolGrid g) {i j : Nat}
    (hi : i < R) (hj : j < C) :
    getCell (update R C g) i j =
      if getCell g i j = 1 then
        if countLiveNeighbors g R C i j < 2 ∨ countLiveNeighbors g R C i j > 3
        then 0 else 1
      else
        if countLiveNeighbors g R C i j = 3 then 1 else 0 := by
  rw [update_get hw hi hj, nextVal_eq]
  have h := hb i j
  split_ifs <;> omega

theorem update_applies_conway_rule_witness :
    getCell (update 5 5 (seed 5 5 (deadGrid 5 5) [(2, 1), (2, 2), (2, 3)])) 2 2 =
      if getCell (seed 5 5 (deadGrid 5 5) [(2, 1), (2, 2), (2, 3)]) 2 2 = 1 then
        if countLiveNeighbors (seed 5 5 (deadGrid 5 5) [(2, 1), (2, 2), (2, 3)]) 5 5 2 2 < 2 ∨
            countLiveNeighbors (seed 5 5 (deadGrid 5 5) [(2, 1), (2, 2), (2, 3)]) 5 5 2 2 > 3
        then 0 else 1
      else
        if countLiveNeighbors (seed 5 5 (deadGrid 5 5) [(2, 1), (2, 2), (2, 3)]) 5 5 2 2 = 3
        then 1 else 0 :=
  update_applies_conway_rule (by decide)
    (boolGrid_seed (boolGrid_deadGrid 5 5) 5 5 _) (by decide) (by decide)

/-- C2: `update` never mutates its input. All writes of the double loop go
to the copy (the second component of the loop state); the first component —
the input generation — is returned unchanged, equal cell for cell, so a
caller may still inspect the previous generation. (That the result is a
separate value is immediate in this embedding; the substantive fact is that
no loop iteration ever writes to the input component.) -/
theorem update_does_not_mutate_input (R C : Nat) (g : Grid) :
    (updatePair R C g).1 = g ∧
      ∀ i j, getCell (updatePair R C g).1 i j = getCell g i j := by
  rw [updatePair_eq]
  exact ⟨rfl, fun _ _ => rfl⟩

/-- C3 counterexample: on a 1×1 grid every one of the 8 wrapped offsets maps
back to the cell `(0, 0)` itself, so `countLiveNeighbors` does count the
cell itself there: with the lone cell ALIVE the count is 8, not 0. This
refutes the claim's "never counts the cell (i, j) itself" for grids
"including 1×1 and 1×N". -/
theorem countLiveNeighbors_counts_self_on_1x1 :
    ((0, 0) ∈ neighborPositions 1 1 0 0) ∧
      countLiveNeighbors [[1]] 1 1 0 0 = 8 := by
  decide

/-- C3 amended: `countLiveNeighbors` examines exactly the 8 positions at
offsets row±1, col±1 modulo the grid dimensions (negative indices
normalized into range); when both dimensions are at least 2 the cell
`(i, j)` itself is not among them; and on a 0/1 grid the result is always
at most 8 (on degenerate 1×N or N×1 grids the wrapped offsets do reach the
cell itself, as the counterexample shows). -/
theorem countLiveNeighbors_no_self_and_bounded {R C i j : Nat} (hR : 2 ≤ R)
    (hC : 2 ≤ C) (hi : i < R) (hj : j < C) (g : Grid) (hb : boolGrid g) :
    (i, j) ∉ neighborPositions R C i j ∧
      (neighborPositions R C i j).length = 8 ∧
      countLiveNeighbors g R C i j ≤ 8 := by
  refine ⟨?_, by simp [neighborPositions, neighborOffsets],
    countLiveNeighbors_le_eight hb R C i j⟩
  have hr1 : wrap R ((i : Int) + -1) ≠ i := by
    rw [wrap_add_neg_one hi]; split_ifs <;> omega
  have hr2 : wrap R ((i : Int) + 1) ≠ i := by
    rw [wrap_add_one hi]; split_ifs <;> omega
  have hc1 : wrap C ((j : Int) + -1) ≠ j := by
    rw [wrap_add_neg_one hj]; split_ifs <;> omega
  have hc2 : wrap C ((j : Int) + 1) ≠ j := by
    rw [wrap_add_one hj]; split_ifs <;> omega
  intro hmem
  simp only [neighborPositions, neighborOffsets, List.mem_map, List.mem_cons,
    List.mem_singleton, List.not_mem_nil, or_false, Prod.mk.injEq] at hmem
  obtain ⟨d, hd, he⟩ := hmem
  rcases hd with rfl | rfl | rfl | rfl | rfl | rfl | rfl | rfl
  · exact hr1 he.1
  · exact hr1 he.1
  · exact hr1 he.1
  · exact hc1 he.2
  · exact hc2 he.2
  · exact hr2 he.1
  · exact hr2 he.1
  · exact hr2 he.1

theorem countLiveNeighbors_no_self_and_bounded_witness :
    ((1, 1) ∉ neighborPositions 3 3 1 1) ∧
      (neighborPositions 3 3 1 1).length = 8 ∧
      countLiveNeighbors (seed 3 3 (deadGrid 3 3) [(0, 0)]) 3 3 1 1 ≤ 8 :=
  countLiveNeighbors_no_self_and_bounded (by decide) (by decide) (by decide)
    (by decide) _ (boolGrid_seed (boolGrid_deadGrid 3 3) 3 3 _)

/-- C4: `create(rows, cols)` fails with `InvalidDimension` whenever
`rows ≤ 0` or `cols ≤ 0`, and for positive dimensions returns a
`rows × cols` grid in which every cell is DEAD. (The operation is modelled
from the spec: the source hard-codes `np.zeros((60, 60))`.) -/
theorem create_spec (rows cols : Int) :
    (rows ≤ 0 ∨ cols ≤ 0 → create rows cols = .error .invalidDimension) ∧
    (0 < rows → 0 < cols →
      create rows cols = .ok (deadGrid rows.toNat cols.toNat) ∧
      gridWF (deadGrid rows.toNat cols.toNat) rows.toNat cols.toNat ∧
      ∀ i j, getCell (deadGrid rows.toNat cols.toNat) i j = 0) := by
  constructor
  · intro h
    unfold create
    rw [if_pos h]
  · intro hr hc
    unfold create
    rw [if_neg (by omega)]
    exact ⟨rfl, gridWF_deadGrid _ _, fun i j => getCell_deadGrid _ _ i j⟩

theorem create_spec_witness :
    create 0 5 = .error .invalidDimension ∧
    create 5 0 = .error .invalidDimension ∧
    create 2 3 = .ok (deadGrid 2 3) :=
  ⟨(create_spec 0 5).1 (Or.inl (by decide)),
   (create_spec 5 0).1 (Or.inr (by decide)),
   ((create_spec 2 3).2 (by decide) (by decide)).1⟩

/-- C5: `seed` sets exactly those cells ALIVE whose coordinate pair lies
strictly inside `[0, rows) × [0, cols)`; every out-of-range pair is
silently ignored: it alters no in-bounds cell, and a list made of only
out-of-range pairs leaves the grid exactly as it was. (`seed` is a total
function, so it never raises.) -/
theorem seed_sets_exactly_in_range {g : Grid} {R C : Nat} (hw : gridWF g R C)
    (coords : List (Int × Int)) :
    (∀ i, i < R → ∀ j, j < C →
      getCell (seed R C g coords) i j =
        if ((i : Int), (j : Int)) ∈ coords then 1 else getCell g i j) ∧
    ((∀ c ∈ coords, ¬(0 ≤ c.1 ∧ c.1 < (R : Int) ∧ 0 ≤ c.2 ∧ c.2 < (C : Int))) →
      seed R C g coords = g) :=
  ⟨fun _ hi _ hj => seed_get hw coords hi hj, seed_noop coords⟩

theorem seed_sets_exactly_in_range_witness :
    getCell (seed 2 2 (deadGrid 2 2) [(-1, 5), (0, 1), (2, 2)]) 0 1 =
      (if ((0 : Int), (1 : Int)) ∈ [((-1 : Int), (5 : Int)), (0, 1), (2, 2)]
       then 1 else getCell (deadGrid 2 2) 0 1) ∧
    seed 2 2 (deadGrid 2 2) [(-1, 5), (2, 2)] = deadGrid 2 2 :=
  ⟨(seed_sets_exactly_in_range (by decide) [(-1, 5), (0, 1), (2, 2)]).1
      0 (by decide) 1 (by decide),
   (seed_sets_exactly_in_range (by decide) [(-1, 5), (2, 2)]).2 (by decide)⟩

/-- C6: toroidal wraparound — on an R×C grid seeded with a single live cell
at (0, 0), that cell is among the 8 positions examined for each of the
corner-adjacent cells (R-1, C-1), (R-1, 0) and (0, C-1), and consequently
each of those cells has a live-neighbor count of at least 1. -/
theorem toroidal_wraparound {R C : Nat} (hR : 0 < R) (hC : 0 < C) :
    ((0, 0) ∈ neighborPositions R C (R - 1) (C - 1) ∧
      1 ≤ countLiveNeighbors (seed R C (deadGrid R C) [(0, 0)]) R C (R - 1) (C - 1)) ∧
    ((0, 0) ∈ neighborPositions R C (R - 1) 0 ∧
      1 ≤ countLiveNeighbors (seed R C (deadGrid R C) [(0, 0)]) R C (R - 1) 0) ∧
    ((0, 0) ∈ neighborPositions R C 0 (C - 1) ∧
      1 ≤ countLiveNeighbors (seed R C (deadGrid R C) [(0, 0)]) R C 0 (C - 1)) := by
  have hg00 : getCell (seed R C (deadGrid R C) [(0, 0)]) 0 0 = 1 := by
    rw [seed_get (gridWF_deadGrid R C) _ hR hC]
    simp
  have hwR : wrap R (((R - 1 : Nat) : Int) + 1) = 0 := by
    rw [show ((R - 1 : Nat) : Int) + 1 = (R : Int) by omega]
    unfold wrap
    rw [Int.emod_self]
    rfl
  have hwC : wrap C (((C - 1 : Nat) : Int) + 1) = 0 := by
    rw [show ((C - 1 : Nat) : Int) + 1 = (C : Int) by omega]
    unfold wrap
    rw [Int.emod_self]
    rfl
  have hw0R : wrap R (((0 : Nat) : Int) + 0) = 0 := wrap_add_zero hR
  have hw0C : wrap C (((0 : Nat) : Int) + 0) = 0 := wrap_add_zero hC
  have m1 : (0, 0) ∈ neighborPositions R C (R - 1) (C - 1) := by
    unfold neighborPositions
    refine List.mem_map.mpr ⟨(1, 1), by simp [neighborOffsets], ?_⟩
    show (wrap R (((R - 1 : Nat) : Int) + 1), wrap C (((C - 1 : Nat) : Int) + 1)) = (0, 0)
    rw [hwR, hwC]
  have m2 : (0, 0) ∈ neighborPositions R C (R - 1) 0 := by
    unfold neighborPositions
    refine List.mem_map.mpr ⟨(1, 0), by simp [neighborOffsets], ?_⟩
    show (wrap R (((R - 1 : Nat) : Int) + 1), wrap C (((0 : Nat) : Int) + 0)) = (0, 0)
    rw [hwR, hw0C]
  have m3 : (0, 0) ∈ neighborPositions R C 0 (C - 1) := by
    unfold neighborPositions
    refine List.mem_map.mpr ⟨(0, 1), by simp [neighborOffsets], ?_⟩
    show (wrap R (((0 : Nat) : Int) + 0), wrap C (((C - 1 : Nat) : Int) + 1)) = (0, 0)
    rw [hw0R, hwC]
  have key : ∀ a b : Nat, (0, 0) ∈ neighborPositions R C a b →
      1 ≤ countLiveNeighbors (seed R C (deadGrid R C) [(0, 0)]) R C a b := by
    intro a b hmem
    unfold countLiveNeighbors
    exact List.single_le_sum (fun x _ => Nat.zero_le x) 1
      (List.mem_map.mpr ⟨(0, 0), hmem, hg00⟩)
  exact ⟨⟨m1, key _ _ m1⟩, ⟨m2, key _ _ m2⟩, ⟨m3, key _ _ m3⟩⟩

theorem toroidal_wraparound_witness :
    ((0, 0) ∈ neighborPositions 3 4 2 3 ∧
      1 ≤ countLiveNeighbors (seed 3 4 (deadGrid 3 4) [(0, 0)]) 3 4 2 3) ∧
    ((0, 0) ∈ neighborPositions 3 4 2 0 ∧
      1 ≤ countLiveNeighbors (seed 3 4 (deadGrid 3 4) [(0, 0)]) 3 4 2 0) ∧
    ((0, 0) ∈ neighborPositions 3 4 0 3 ∧
      1 ≤ countLiveNeighbors (seed 3 4 (deadGrid 3 4) [(0, 0)]) 3 4 0 3) :=
  toroidal_wraparound (by decide) (by decide)

/-- C7: blinker oscillation — on any grid large enough that the pattern
sits away from wraparound interference (2 ≤ r, r + 2 < R, 2 ≤ c,
c + 2 < C), the grid whose only live cells are the horizontal triple
`(r, c-1), (r, c), (r, c+1)` returns to itself after two applications of
`update`: a period-2 oscillator (one step yields the vertical triple, the
next step restores the horizontal one). -/
theorem blinker_period_two {R C r c : Nat} (hr : 2 ≤ r) (hrR : r + 2 < R)
    (hc : 2 ≤ c) (hcC : c + 2 < C) :
    update R C (update R C (blinkerH R C r c)) = blinkerH R C r c := by
  rw [update_blinkerH hr hrR hc hcC, update_blinkerV hr hrR hc hcC]

theorem blinker_period_two_witness :
    update 5 5 (update 5 5 (blinkerH 5 5 2 2)) = blinkerH 5 5 2 2 :=
  blinker_period_two (by decide) (by decide) (by decide) (by decide)

/-- C8: dimension preservation — for every well-formed grid, `update`
returns a grid with exactly the same row count and column count, and `seed`
never changes the dimensions either; so dimensions never change after
creation under any sequence of these operations. -/
theorem dimensions_preserved {g : Grid} {R C : Nat} (hw : gridWF g R C)
    (coords : List (Int × Int)) :
    gridWF (update R C g) R C ∧ gridWF (seed R C g coords) R C ∧
      (update R C g).length = g.length ∧
      (seed R C g coords).length = g.length := by
  have h1 := gridWF_update hw
  have h2 := gridWF_seed hw coords
  exact ⟨h1, h2, by rw [h1.1, hw.1], by rw [h2.1, hw.1]⟩

theorem dimensions_preserved_witness :
    gridWF (update 2 3 (deadGrid 2 3)) 2 3 ∧
      gridWF (seed 2 3 (deadGrid 2 3) [(0, 0)]) 2 3 ∧
      (update 2 3 (deadGrid 2 3)).length = (deadGrid 2 3).length ∧
      (seed 2 3 (deadGrid 2 3) [(0, 0)]).length = (deadGrid 2 3).length :=
  dimensions_preserved (by decide) [(0, 0)]

/-- C9: the copy-then-modify implementation (copy the grid, overwrite a cell
only when ALIVE with count < 2 or > 3, or DEAD with count exactly 3) is
extensionally equal to the four-case reference rule that recomputes every
cell from scratch: the unlisted cases (ALIVE with 2 or 3 neighbors, DEAD
with count ≠ 3) keep their value through the copy. -/
theorem copy_then_modify_equals_reference {g : Grid} {R C : Nat}
    (hw : gridWF g R C) (hb : boolGrid g) {i j : Nat}
    (hi : i < R) (hj : j < C) :
    getCell (update R C g) i j = referenceNextState g R C i j := by
  rw [update_get hw hi hj, nextVal_eq]
  unfold referenceNextState
  have h := hb i j
  split_ifs <;> omega

theorem copy_then_modify_equals_reference_witness :
    getCell (update 4 4 (seed 4 4 (deadGrid 4 4) [(0, 0), (0, 1), (1, 0)])) 1 1 =
      referenceNextState (seed 4 4 (deadGrid 4 4) [(0, 0), (0, 1), (1, 0)]) 4 4 1 1 :=
  copy_then_modify_equals_reference (by decide)
    (boolGrid_seed (boolGrid_deadGrid 4 4) 4 4 _) (by decide) (by decide)

/-- C10: cell values are always exactly 0 or 1 in every reachable grid: the
initial grid is all zeros, `seed` writes only the value 1 into in-range
cells, and `update` writes only 0 or 1, keeping copied values otherwise —
so the grid handed to the renderer is a well-formed 0/1 array and every
neighbor sum is an integer. -/
theorem cell_values_zero_or_one (R C : Nat) (g : Grid)
    (coords : List (Int × Int)) :
    boolGrid (deadGrid R C) ∧
    (boolGrid g → boolGrid (seed R C g coords)) ∧
    (gridWF g R C → boolGrid g → boolGrid (update R C g)) :=
  ⟨boolGrid_deadGrid R C, fun hb => boolGrid_seed hb R C coords,
    fun hw hb => boolGrid_update hw hb⟩

theorem cell_values_zero_or_one_witness :
    boolGrid (deadGrid 2 2) ∧
      boolGrid (seed 2 2 (deadGrid 2 2) [(0, 0)]) ∧
      boolGrid (update 2 2 (seed 2 2 (deadGrid 2 2) [(0, 0)])) :=
  ⟨(cell_values_zero_or_one 2 2 (deadGrid 2 2) [(0, 0)]).1,
   (cell_values_zero_or_one 2 2 (deadGrid 2 2) [(0, 0)]).2.1
     (boolGrid_deadGrid 2 2),
   (cell_values_zero_or_one 2 2 (seed 2 2 (deadGrid 2 2) [(0, 0)]) [(0, 0)]).2.2
     (by decide) (boolGrid_seed (boolGrid_deadGrid 2 2) 2 2 _)⟩

end GameOfLife
